import Mathlib

/-!
Verification of `gitlog_summary` (src/gitlog_summary/cli.py) against its
natural-language specification.

The Python program is shallowly embedded below.  External collaborators
(the GitHub API and the local inference service) are passed in as explicit
data / functions; exceptions raised by Python code are modelled with
`Option` / `Except`; the JSON cache file on disk is modelled by an abstract
`FileState`; wall-clock time is an explicit `Int` parameter (seconds).
-/

/-- A JSON value, as produced by Python's `json` module for the data this
program reads and writes (the program never stores booleans, so the model
omits them).  Numbers are modelled as integers (the only arithmetic the
program performs on them is the TTL subtraction/comparison). -/
inductive Json where
  | null : Json
  | num (n : Int) : Json
  | str (s : String) : Json
  | arr (elems : List Json) : Json
  | obj (fields : List (String × Json)) : Json

/-- Python dict lookup `m.get(k)` / `m[k]` on a JSON object's field list
(first matching key wins; `json.load` produces unique keys). -/
def lookupKey : List (String × Json) → String → Option Json
  | [], _ => none
  | (k, v) :: rest, key => if k = key then some v else lookupKey rest key

/-- Python dict assignment `m[k] = v`: replace the first binding of `k`,
or append a new binding at the end (dict insertion order). -/
def setKey : List (String × Json) → String → Json → List (String × Json)
  | [], key, v => [(key, v)]
  | (k, w) :: rest, key, v =>
      if k = key then (key, v) :: rest else (k, w) :: setKey rest key v

/-- Python truthiness of a JSON value (`if entry and ...` in `load_cache`). -/
def pyTruthy : Json → Bool
  | .null => false
  | .num n => n != 0
  | .str s => s != ""
  | .arr l => !l.isEmpty
  | .obj m => !m.isEmpty

/-- The state of the on-disk cache file `.gh_commit_cache.json`:
absent (`os.path.exists` is false), present but unreadable or not parseable
as JSON (`open`/`json.load` raises), or readable with JSON content `j`. -/
inductive FileState where
  | absent : FileState
  | corrupt : FileState
  | content (j : Json) : FileState

/-- `CACHE_TTL = 15 * 60` (cli.py line 10). -/
def CACHE_TTL : Int := 15 * 60

/-- `cache_key` (cli.py lines 68-69): the cache key is the date string. -/
def cache_key (date : String) : String := date

/-- `load_cache` (cli.py lines 71-82).  `now` is `time.time()`.  Every
exception inside the `try` (read failure, JSON parse failure, subscripting a
non-dict, a missing `"timestamp"`/`"commits"` key, subtracting a
non-numeric timestamp) is caught and falls through to `return None`;
the embedding returns `none` on each of those paths. -/
def load_cache (fs : FileState) (now : Int) (date : String) : Option Json :=
  match fs with
  | .absent => none
  | .corrupt => none
  | .content (.obj data) =>
    match lookupKey data (cache_key date) with
    | none => none
    | some entry =>
      if pyTruthy entry then
        match entry with
        | .obj em =>
          match lookupKey em "timestamp" with
          | some (.num ts) =>
            if now - ts < CACHE_TTL then
              match lookupKey em "commits" with
              | some c => some c
              | none => none
            else none
          | some _ => none
          | none => none
        | _ => none
      else none
  | .content _ => none

/-- `save_cache` (cli.py lines 84-95).  A read/parse failure of the existing
file is caught and replaced by the empty dict; but if the existing file
parses to a non-dict JSON value, the uncaught `data[key] = ...` raises a
`TypeError`, which the embedding reports as `Except.error ()`. -/
def save_cache (fs : FileState) (now : Int) (date : String) (commits : Json) :
    Except Unit FileState :=
  let data : Json :=
    match fs with
    | .content j => j
    | _ => .obj []
  match data with
  | .obj m =>
      .ok (.content (.obj (setKey m (cache_key date)
        (.obj [("timestamp", .num now), ("commits", commits)]))))
  | _ => .error ()

/-- A sequence of `save_cache` calls, each given as `(time, date, payload)`,
applied in order (a failing save aborts, like the uncaught Python exception). -/
def apply_saves (fs : FileState) : List (Int × String × Json) → Except Unit FileState
  | [] => .ok fs
  | w :: rest =>
    match save_cache fs w.1 w.2.1 w.2.2 with
    | .ok fs' => apply_saves fs' rest
    | .error e => .error e

/-- Helper for `pySplitlines`: walk the characters, cutting a line at each
line boundary (`\n`, `\r`, or the pair `\r\n`); like Python, no empty final
line is produced after a trailing terminator. -/
def pySplitlinesGo : List Char → String → List String
  | [], acc => if acc = "" then [] else [acc]
  | '\r' :: '\n' :: rest, acc => acc :: pySplitlinesGo rest ""
  | '\r' :: rest, acc => acc :: pySplitlinesGo rest ""
  | '\n' :: rest, acc => acc :: pySplitlinesGo rest ""
  | c :: rest, acc => pySplitlinesGo rest (acc.push c)

/-- Python `str.splitlines()`, restricted to the `\n`, `\r` and `\r\n`
boundaries (the exotic unicode boundaries Python also recognises play no
role for this program).  In particular `"".splitlines() == []`. -/
def pySplitlines (s : String) : List String := pySplitlinesGo s.data ""

/-- The commit formatting of cli.py line 22:
`f"{c.sha[:7]} {c.commit.message.splitlines()[0]}"`.
A commit is modelled as a `(sha, message)` pair.  When the message is empty,
`splitlines()` is `[]` and the `[0]` subscript raises `IndexError`
(modelled as `none`); that exception is only caught by the per-repository
`except` in `get_github_commits`. -/
def format_commit (sha message : String) : Option String :=
  match pySplitlines message with
  | [] => none
  | line :: _ => some (sha.take 7 ++ " " ++ line)

/-- The list comprehension of cli.py line 22: all commits of a repository
are formatted; the first `IndexError` aborts the whole comprehension. -/
def repo_commit_list : List (String × String) → Option (List String)
  | [] => some []
  | c :: rest =>
    match format_commit c.1 c.2 with
    | none => none
    | some s =>
      match repo_commit_list rest with
      | none => none
      | some l => some (s :: l)

/-- A repository as seen by `get_github_commits`: its `full_name` and the
outcome of `repo.get_commits(author=user, since=since, until=until)` —
either an exception or a list of `(sha, message)` commits. -/
structure GhRepo where
  full_name : String
  fetch : Except Unit (List (String × String))

/-- `get_github_commits` (cli.py lines 12-27), with the repository
enumeration already performed (its result is the `repos` argument).  The
per-repository `try` covers both the fetch and the formatting comprehension;
any exception skips the repository (`continue`).  Repositories with an
empty formatted commit list are omitted. -/
def get_github_commits (repos : List GhRepo) : List (String × List String) :=
  repos.filterMap (fun r =>
    match r.fetch with
    | .error _ => none
    | .ok cs =>
      match repo_commit_list cs with
      | none => none
      | some commit_list =>
        if commit_list.isEmpty then none else some (r.full_name, commit_list))

/-- A changed-file object as delivered by the hosting API for a commit:
`filename`, the optional `patch` text (absent for binary / too-large /
removed files), and whether the Python object exposes a `patch` attribute
at all (`hasattr(f, 'patch')` on cli.py line 35; PyGithub file objects
define `patch` as an always-present property whose value is `None` when
there is no patch, which is why line 35 also guards with `f.patch or ""`). -/
structure CommitFile where
  filename : String
  patch : Option String
  hasPatchAttr : Bool

/-- The diff text built on cli.py line 35:
`"\n".join([f.filename + "\n" + (f.patch or "") for f in diff if hasattr(f, 'patch')])`. -/
def diff_text (files : List CommitFile) : String :=
  String.intercalate "\n" (files.filterMap (fun f =>
    if f.hasPatchAttr then some (f.filename ++ "\n" ++ f.patch.getD "") else none))

/-- Helper for `pySplitWs`: accumulate the current token, cutting at each
whitespace character; runs of whitespace produce no empty tokens. -/
def pySplitWsGo : List Char → String → List String
  | [], acc => if acc = "" then [] else [acc]
  | c :: rest, acc =>
    if c.isWhitespace then
      (if acc = "" then pySplitWsGo rest "" else acc :: pySplitWsGo rest "")
    else pySplitWsGo rest (acc.push c)

/-- Python `str.split()` with no argument: split on runs of whitespace,
discarding empty pieces.  Used for `commit.split()[0]` on cli.py line 33
(an empty result makes the `[0]` subscript raise, caught by the per-commit
`except`). -/
def pySplitWs (s : String) : List String := pySplitWsGo s.data ""

/-- The body of the loop of `get_commit_diffs` (cli.py lines 31-38) for one
formatted commit string: extract the leading hash token, fetch the commit's
changed files, and build the diff text; any exception (including the
`IndexError` from `split()[0]` on a token-less string) yields the
placeholder pair. -/
def diff_for_commit (fetch : String → Except Unit (List CommitFile))
    (commit : String) : String × String :=
  match pySplitWs commit with
  | [] => (commit, "[Diff not available]")
  | sha :: _ =>
    match fetch sha with
    | .ok files => (commit, diff_text files)
    | .error _ => (commit, "[Diff not available]")

/-- `get_commit_diffs` (cli.py lines 29-39).  The repository object is
represented by its `get_commit` method: hash → changed files or exception. -/
def get_commit_diffs (fetch : String → Except Unit (List CommitFile))
    (commits : List String) : List (String × String) :=
  commits.map (diff_for_commit fetch)

/-- `estimate_token_count` (cli.py lines 51-53): `len(text) // 4`. -/
def estimate_token_count (text : String) : Nat := text.length / 4

/-- `AI_CONTEXT_LIMIT = 15000` (cli.py line 55). -/
def AI_CONTEXT_LIMIT : Nat := 15000

/-- `AI_SUMMARY_LIMIT = 12000` (cli.py line 56). -/
def AI_SUMMARY_LIMIT : Nat := 12000

/-- `create_ai_prompt` (cli.py lines 41-49). -/
def create_ai_prompt (repo_name : String) (commit_diffs : List (String × String))
    (date : String) : String :=
  (commit_diffs.foldl
    (fun acc p => acc ++ "Commit: " ++ p.1 ++ "\nDiff:\n" ++ p.2 ++ "\n\n")
    ("\nYou are an expert software engineer. Summarize the following git commit diffs for repository '"
      ++ repo_name ++ "' for " ++ date
      ++ ". Focus on the main changes, improvements, and bug fixes. Be concise and clear.\n\n"))
  ++ "\nSummary:"

/-- `get_ai_summary` (cli.py lines 58-66).  `acquire` is the
`import lmstudio as lms; model = lms.llm()` step, which the source performs
inside the `try` and before the token-count check; `respond` is
`model.respond`.  An `Except.error e` carries the exception's description
(`str(e)`), interpolated into the failure sentinel by the `except` clause. -/
def get_ai_summary (acquire : Except String Unit)
    (respond : String → Except String String) (prompt : String) : String :=
  match acquire with
  | .error e => "[AI summary failed: " ++ e ++ "]"
  | .ok _ =>
    if estimate_token_count prompt > AI_SUMMARY_LIMIT then
      "[Prompt too long for LLM context window, skipping summary.]"
    else
      match respond prompt with
      | .ok s => s
      | .error e => "[AI summary failed: " ++ e ++ "]"

/-- The concatenated per-commit-summaries block of cli.py line 130:
`"\n".join([f"Commit: {c}\nSummary: {s}" for c, s in per_commit_summaries])`. -/
def all_commit_text (pcs : List (String × String)) : String :=
  String.intercalate "\n" (pcs.map (fun p => "Commit: " ++ p.1 ++ "\nSummary: " ++ p.2))

/-- The roll-up prompt of cli.py line 132. -/
def final_prompt (repo_name date act : String) : String :=
  "You are an expert software engineer. Summarize the following commit summaries for repository '"
    ++ repo_name ++ "' for " ++ date ++ ".\n\n" ++ act ++ "\n\nFinal Summary:"

/-- The per-repository roll-up step of `main` (cli.py lines 129-136),
returning the line printed for the repository: either the final summary
obtained from the inference collaborator `get_ai`, or the skip notice. -/
def rollup_step (get_ai : String → String) (repo_name date : String)
    (pcs : List (String × String)) : String :=
  if estimate_token_count (all_commit_text pcs) < AI_SUMMARY_LIMIT then
    "\nRepository: " ++ repo_name ++ "\nFinal AI Summary:\n"
      ++ get_ai (final_prompt repo_name date (all_commit_text pcs))
  else
    "\nRepository: " ++ repo_name
      ++ "\n[Final summary skipped: too much content for LLM context window]"

/-- A 48000-character commit summary, used to overflow the token budget. -/
def longSummary : String := String.mk (List.replicate 48000 'a')

/-- A 48004-character prompt, whose estimated token count is 12001. -/
def longPrompt : String := String.mk (List.replicate 48004 'a')

/-- The bad cache-file states enumerated by the claim: file absent;
unreadable or malformed JSON; wrong shape (top-level value not an object,
or the entry for the date not an object); missing entry for the date; or
missing / malformed entry fields (no `"timestamp"` key, a non-numeric
`"timestamp"`, or no `"commits"` key). -/
def badCacheState (d : String) : FileState → Bool
  | .absent => true
  | .corrupt => true
  | .content (.obj m) =>
    match lookupKey m d with
    | none => true
    | some (.obj em) =>
      match lookupKey em "timestamp" with
      | some (.num _) => (lookupKey em "commits").isNone
      | some _ => true
      | none => true
    | some _ => true
  | .content _ => true

theorem lookupKey_setKey_self (m : List (String × Json)) (k : String) (v : Json) :
    lookupKey (setKey m k v) k = some v := by
  induction m with
  | nil => simp [setKey, lookupKey]
  | cons p rest ih =>
    obtain ⟨pk, pv⟩ := p
    by_cases hp : pk = k
    · simp [setKey, hp, lookupKey]
    · simp [setKey, hp, lookupKey, ih]

theorem lookupKey_setKey_of_ne (m : List (String × Json)) (k k' : String) (v : Json)
    (h : k' ≠ k) : lookupKey (setKey m k v) k' = lookupKey m k' := by
  induction m with
  | nil => simp [setKey, lookupKey, Ne.symm h]
  | cons p rest ih =>
    obtain ⟨pk, pv⟩ := p
    by_cases hp : pk = k
    · subst hp
      simp [setKey, lookupKey, Ne.symm h]
    · simp [setKey, hp, lookupKey, ih]

/-- Unfolding `load_cache` on a state whose mapping has a well-formed entry
for the requested date. -/
theorem load_cache_of_entry (m : List (String × Json)) (now t : Int) (d : String)
    (X : Json) (h : lookupKey m d = some (.obj [("timestamp", .num t), ("commits", X)])) :
    load_cache (.content (.obj m)) now d =
      if now - t < CACHE_TTL then some X else none := by
  have h1 : lookupKey [("timestamp", Json.num t), ("commits", X)] "timestamp"
      = some (Json.num t) := rfl
  have h2 : lookupKey [("timestamp", Json.num t), ("commits", X)] "commits"
      = some X := rfl
  have h3 : pyTruthy (Json.obj [("timestamp", Json.num t), ("commits", X)]) = true := rfl
  simp only [load_cache, cache_key, h, h1, h2, h3, if_true]

/-- Shape of a successful `save_cache`: the resulting file holds a JSON
object whose entry for the date is `{"timestamp": t, "commits": X}`. -/
theorem save_cache_ok_entry (fs : FileState) (t : Int) (d : String) (X : Json)
    (fs' : FileState) (h : save_cache fs t d X = Except.ok fs') :
    ∃ m', fs' = .content (.obj m') ∧
      lookupKey m' d = some (.obj [("timestamp", .num t), ("commits", X)]) := by
  cases fs with
  | absent =>
    refine ⟨setKey [] (cache_key d) (.obj [("timestamp", .num t), ("commits", X)]), ?_, ?_⟩
    · simpa [save_cache] using h.symm
    · simpa [cache_key] using lookupKey_setKey_self [] d _
  | corrupt =>
    refine ⟨setKey [] (cache_key d) (.obj [("timestamp", .num t), ("commits", X)]), ?_, ?_⟩
    · simpa [save_cache] using h.symm
    · simpa [cache_key] using lookupKey_setKey_self [] d _
  | content j =>
    cases j with
    | obj m =>
      refine ⟨setKey m (cache_key d) (.obj [("timestamp", .num t), ("commits", X)]), ?_, ?_⟩
      · simpa [save_cache] using h.symm
      · simpa [cache_key] using lookupKey_setKey_self m d _
    | null => exact absurd h (by simp [save_cache])
    | num n => exact absurd h (by simp [save_cache])
    | str s => exact absurd h (by simp [save_cache])
    | arr l => exact absurd h (by simp [save_cache])

/-- Saving under a different date never touches the entry for `d`. -/
theorem save_cache_preserves (m : List (String × Json)) (t : Int) (dOther d : String)
    (Y : Json) (hne : dOther ≠ d) :
    ∃ m', save_cache (.content (.obj m)) t dOther Y = Except.ok (.content (.obj m')) ∧
      lookupKey m' d = lookupKey m d := by
  refine ⟨setKey m (cache_key dOther) (.obj [("timestamp", .num t), ("commits", Y)]), rfl, ?_⟩
  simpa [cache_key] using lookupKey_setKey_of_ne m dOther d _ (Ne.symm hne)

theorem apply_saves_preserves (writes : List (Int × String × Json)) :
    ∀ (m : List (String × Json)) (fs'' : FileState) (d : String),
      (∀ w ∈ writes, w.2.1 ≠ d) →
      apply_saves (.content (.obj m)) writes = Except.ok fs'' →
      ∃ m', fs'' = .content (.obj m') ∧ lookupKey m' d = lookupKey m d := by
  induction writes with
  | nil =>
    intro m fs'' d _ h
    simp only [apply_saves, Except.ok.injEq] at h
    exact ⟨m, h.symm, rfl⟩
  | cons w rest ih =>
    intro m fs'' d hw h
    obtain ⟨m1, hsave, hpres⟩ :=
      save_cache_preserves m w.1 w.2.1 d w.2.2 (hw w (List.mem_cons_self w rest))
    simp only [apply_saves, hsave] at h
    obtain ⟨m', hfs, hlk⟩ := ih m1 fs'' d (fun x hx => hw x (List.mem_cons_of_mem w hx)) h
    exact ⟨m', hfs, hlk.trans hpres⟩

/-- Claim C2: for every date `d` and payload `X`, if `load_cache d` is
performed after `save_cache d X` (at time `t`) with no intervening write for
`d` (any number of intervening saves under other dates is allowed), it
returns `X` while fewer than 900 seconds have elapsed since the save, and
returns `none` once more than 900 seconds have elapsed. -/
theorem cache_roundtrip_ttl (fs fs' fs'' : FileState) (d : String) (X : Json)
    (t now : Int) (writes : List (Int × String × Json))
    (hsave : save_cache fs t d X = Except.ok fs')
    (hw : ∀ w ∈ writes, w.2.1 ≠ d)
    (happly : apply_saves fs' writes = Except.ok fs'') :
    (now - t < 900 → load_cache fs'' now d = some X) ∧
    (900 < now - t → load_cache fs'' now d = none) := by
  obtain ⟨m, hm, hlk⟩ := save_cache_ok_entry fs t d X fs' hsave
  subst hm
  obtain ⟨m', hm', hlk'⟩ := apply_saves_preserves writes m fs'' d hw happly
  subst hm'
  have hload := load_cache_of_entry m' now t d X (hlk'.trans hlk)
  have httl : CACHE_TTL = 900 := rfl
  constructor
  · intro hfresh
    rw [hload, if_pos (by omega)]
  · intro hstale
    rw [hload, if_neg (by omega)]

theorem cache_roundtrip_ttl_witness :
    load_cache (FileState.content (Json.obj [("2024-01-01",
        Json.obj [("timestamp", Json.num 0), ("commits", Json.str "payload")])]))
        100 "2024-01-01" = some (Json.str "payload") ∧
    load_cache (FileState.content (Json.obj [("2024-01-01",
        Json.obj [("timestamp", Json.num 0), ("commits", Json.str "payload")])]))
        1000 "2024-01-01" = none :=
  ⟨(cache_roundtrip_ttl .absent _ _ "2024-01-01" (Json.str "payload") 0 100 []
      rfl (by simp) rfl).1 (by norm_num),
   (cache_roundtrip_ttl .absent _ _ "2024-01-01" (Json.str "payload") 0 1000 []
      rfl (by simp) rfl).2 (by norm_num)⟩

/-- Claim C7: after `save_cache d X` with `X` the empty payload (the JSON
array the Python list of zero repository groups serializes to), a
`load_cache d` within the TTL returns that empty sequence, not `none`, so a
valid empty result is distinguishable from a cache miss. -/
theorem cache_empty_roundtrip (fs fs' : FileState) (d : String) (t now : Int)
    (hsave : save_cache fs t d (Json.arr []) = Except.ok fs')
    (hfresh : now - t < 900) :
    load_cache fs' now d = some (Json.arr []) := by
  obtain ⟨m, hm, hlk⟩ := save_cache_ok_entry fs t d (Json.arr []) fs' hsave
  subst hm
  have httl : CACHE_TTL = 900 := rfl
  rw [load_cache_of_entry m now t d _ hlk, if_pos (by omega)]

theorem cache_empty_roundtrip_witness :
    load_cache (FileState.content (Json.obj [("2024-02-02",
        Json.obj [("timestamp", Json.num 10), ("commits", Json.arr [])])]))
        200 "2024-02-02" = some (Json.arr []) :=
  cache_empty_roundtrip .absent _ "2024-02-02" 10 200 rfl (by norm_num)

/-- Claim C9: on a readable existing cache mapping `m`, `save_cache` writes
back a mapping equal to `m` except at key `d`, which is set to
`{"timestamp": now, "commits": X}`; every other key of `m` is preserved. -/
theorem save_cache_frame (m : List (String × Json)) (t : Int) (d : String) (X : Json) :
    ∃ m', save_cache (.content (.obj m)) t d X = Except.ok (.content (.obj m')) ∧
      lookupKey m' d = some (.obj [("timestamp", Json.num t), ("commits", X)]) ∧
      ∀ k, k ≠ d → lookupKey m' k = lookupKey m k := by
  refine ⟨setKey m (cache_key d) (.obj [("timestamp", .num t), ("commits", X)]), rfl, ?_, ?_⟩
  · simpa [cache_key] using lookupKey_setKey_self m d _
  · intro k hk
    simpa [cache_key] using lookupKey_setKey_of_ne m d k _ hk

theorem save_cache_frame_witness :
    ∃ m', save_cache (.content (.obj [("2024-03-03", Json.null)])) 5 "2024-03-04"
        (Json.arr []) = Except.ok (.content (.obj m')) ∧
      lookupKey m' "2024-03-04"
        = some (.obj [("timestamp", Json.num 5), ("commits", Json.arr [])]) ∧
      ∀ k, k ≠ "2024-03-04" → lookupKey m' k = lookupKey [("2024-03-03", Json.null)] k :=
  save_cache_frame [("2024-03-03", Json.null)] 5 "2024-03-04" (Json.arr [])

theorem pySplitlinesGo_ne_nil (l : List Char) (acc : String) :
    (l = [] → acc ≠ "") → pySplitlinesGo l acc ≠ [] := by
  induction l, acc using pySplitlinesGo.induct with
  | case1 => intro h; exact absurd rfl (h rfl)
  | case2 acc hacc => intro _; simp [pySplitlinesGo, hacc]
  | case3 rest acc ih => intro _; simp [pySplitlinesGo]
  | case4 rest acc hne ih =>
    intro _
    rcases rest with _ | ⟨c2, rest2⟩
    · simp [pySplitlinesGo]
    · by_cases hc2 : c2 = '\n'
      · exact absurd (by rw [hc2]) (fun hh => hne rest2 hh)
      · simp [pySplitlinesGo, hc2]
  | case5 rest acc ih => intro _; simp [pySplitlinesGo]
  | case6 c rest acc h1 h2 h3 ih =>
    intro _
    have heq : pySplitlinesGo (c :: rest) acc = pySplitlinesGo rest (acc.push c) := by
      simp [pySplitlinesGo, h2, h3]
    rw [heq]
    apply ih
    intro _ hpush
    have hl : (acc.push c).length = acc.length + 1 := by simp
    rw [hpush] at hl
    simp at hl

/-- A nonempty string has at least one line. -/
theorem pySplitlines_ne_nil (s : String) (h : s ≠ "") : pySplitlines s ≠ [] := by
  apply pySplitlinesGo_ne_nil
  intro hdata
  cases s with
  | mk data =>
    cases data with
    | nil => exact absurd rfl h
    | cons c cs => exact absurd hdata (by simp)

theorem repo_commit_list_some (cs : List (String × String))
    (h : ∀ c ∈ cs, c.2 ≠ "") :
    ∃ l, repo_commit_list cs = some l ∧ l.length = cs.length := by
  induction cs with
  | nil => exact ⟨[], rfl, rfl⟩
  | cons c rest ih =>
    obtain ⟨l, hl, hlen⟩ := ih (fun x hx => h x (List.mem_cons_of_mem c hx))
    have hc : c.2 ≠ "" := h c (List.mem_cons_self c rest)
    obtain ⟨line, ls, hsplit⟩ := List.exists_cons_of_ne_nil (pySplitlines_ne_nil c.2 hc)
    refine ⟨(c.1.take 7 ++ " " ++ line) :: l, ?_, by simp [hlen]⟩
    have hf : format_commit c.1 c.2 = some (c.1.take 7 ++ " " ++ line) := by
      simp [format_commit, hsplit]
    simp [repo_commit_list, hf, hl]

/-- Claim C5 (amended): for every commit whose message is nonempty, the
collector formats it as the first 7 characters of the hash, a space, and
the first line of the message, and includes it in its repository's group;
for a commit whose message is empty, `message.splitlines()[0]` raises
`IndexError` inside the per-repository `try`, so the whole repository group
is omitted (the formatted string is never "just the hash"). -/
theorem commit_format (name sha message : String) :
    (message ≠ "" →
      get_github_commits [⟨name, Except.ok [(sha, message)]⟩]
        = [(name, [sha.take 7 ++ " " ++ (pySplitlines message).headD ""])]) ∧
    (message = "" →
      get_github_commits [⟨name, Except.ok [(sha, message)]⟩] = []) := by
  constructor
  · intro h
    obtain ⟨line, ls, hsplit⟩ :=
      List.exists_cons_of_ne_nil (pySplitlines_ne_nil message h)
    have hf : format_commit sha message = some (sha.take 7 ++ " " ++ line) := by
      simp [format_commit, hsplit]
    simp [get_github_commits, repo_commit_list, hf, hsplit]
  · intro h
    subst h
    rfl

/-- Claim C5 counterexample: a fetched commit with an empty message is not
included formatted as its bare hash — instead the whole repository group
disappears from the result. -/
theorem commit_format_cex :
    get_github_commits [⟨"me/proj", Except.ok [("1234567890abcde", "")]⟩] = [] := rfl

theorem commit_format_witness :
    get_github_commits [⟨"u/r", Except.ok [("abc12345678", "Fix bug\ndetails")]⟩]
      = [("u/r", ["abc1234 Fix bug"])] := by
  have h := (commit_format "u/r" "abc12345678" "Fix bug\ndetails").1 (by decide)
  rw [h]
  rfl

/-- Claim C1 (amended): given a repository list in which fetching raises for
`R` but succeeds for `S` with a nonempty commit list all of whose commit
messages are nonempty, `get_github_commits` returns a result containing a
group for `S` and containing no group originating from a failed repository
(so none from `R`); the function is total, so it never raises.  (The claim
as frozen fails when one of `S`'s matching commits has an empty message:
the formatting comprehension then raises inside the same per-repository
`try`, and `S` is skipped exactly like `R` — see the counterexample.) -/
theorem get_github_commits_skips_failed (repos : List GhRepo) (R S : GhRepo)
    (hR : R ∈ repos) (hS : S ∈ repos)
    (hRf : R.fetch = Except.error ())
    (cs : List (String × String)) (hSf : S.fetch = Except.ok cs)
    (hne : cs ≠ []) (hmsg : ∀ c ∈ cs, c.2 ≠ "") :
    (∃ l, (S.full_name, l) ∈ get_github_commits repos) ∧
    (∀ g ∈ get_github_commits repos,
      ∃ r, r ∈ repos ∧ r.fetch ≠ Except.error () ∧ g.1 = r.full_name) := by
  constructor
  · obtain ⟨l, hl, hlen⟩ := repo_commit_list_some cs hmsg
    refine ⟨l, ?_⟩
    simp only [get_github_commits, List.mem_filterMap]
    refine ⟨S, hS, ?_⟩
    have hemp : l.isEmpty = false := by
      cases l with
      | nil =>
        exact absurd (List.length_eq_zero.mp hlen.symm) hne
      | cons a as => rfl
    simp [hSf, hl, hemp]
  · intro g hg
    simp only [get_github_commits, List.mem_filterMap] at hg
    obtain ⟨r, hr, hfr⟩ := hg
    refine ⟨r, hr, ?_, ?_⟩
    · intro hfe
      rw [hfe] at hfr
      simp at hfr
    · rcases hfetch : r.fetch with u | cs'
      · rw [hfetch] at hfr
        simp at hfr
      · rw [hfetch] at hfr
        rcases hrcl : repo_commit_list cs' with _ | l'
        · simp [hrcl] at hfr
        · simp only [hrcl] at hfr
          by_cases he : l'.isEmpty
          · simp [he] at hfr
          · simp only [he, Bool.false_eq_true, if_false, Option.some.injEq] at hfr
            rw [← hfr]

/-- Claim C1 counterexample: fetching raises for `cex/r` and succeeds for
`cex/s` with one matching commit, yet the result omits `cex/s` as well,
because that commit's empty message makes the formatting raise inside the
same per-repository `try`. -/
theorem get_github_commits_skips_failed_cex :
    get_github_commits
      [⟨"cex/r", Except.error ()⟩, ⟨"cex/s", Except.ok [("abcdef1234", "")]⟩] = [] := rfl

theorem get_github_commits_skips_failed_witness :
    (∃ l, ("u/s", l) ∈ get_github_commits
        [⟨"u/r", Except.error ()⟩, ⟨"u/s", Except.ok [("abcdef1234", "Fix bug")]⟩]) ∧
    (∀ g ∈ get_github_commits
        [⟨"u/r", Except.error ()⟩, ⟨"u/s", Except.ok [("abcdef1234", "Fix bug")]⟩],
      ∃ r, r ∈ [(⟨"u/r", Except.error ()⟩ : GhRepo),
                ⟨"u/s", Except.ok [("abcdef1234", "Fix bug")]⟩] ∧
        r.fetch ≠ Except.error () ∧ g.1 = r.full_name) :=
  get_github_commits_skips_failed _ ⟨"u/r", Except.error ()⟩
    ⟨"u/s", Except.ok [("abcdef1234", "Fix bug")]⟩
    (List.mem_cons_self _ _) (by simp) rfl _ rfl (by simp) (by decide)

theorem diff_for_commit_fst (fetch : String → Except Unit (List CommitFile))
    (c : String) : (diff_for_commit fetch c).1 = c := by
  unfold diff_for_commit
  split
  · rfl
  · split <;> rfl

/-- Claim C10: `get_commit_diffs` returns exactly one `(commit, diffText)`
pair per input commit, in input order, the i-th pair's first component
being the i-th input string, regardless of whether each individual fetch
succeeds or fails. -/
theorem get_commit_diffs_shape (fetch : String → Except Unit (List CommitFile))
    (commits : List String) :
    (get_commit_diffs fetch commits).map Prod.fst = commits ∧
    (get_commit_diffs fetch commits).length = commits.length := by
  constructor
  · induction commits with
    | nil => rfl
    | cons c rest ih =>
      simp only [get_commit_diffs, List.map_cons] at ih ⊢
      rw [diff_for_commit_fst, ih]
  · simp [get_commit_diffs]

/-- Claim C6 (amended): in the diff text of a successfully fetched commit,
a changed file contributes `filename ++ "\n" ++ patch` exactly when the
file object has the `patch` attribute; a file carrying the attribute with
an absent patch value (binary, too large, removed — PyGithub's
representation) still contributes its filename and a newline, with empty
patch text; only a file lacking the attribute contributes nothing. -/
theorem diff_text_patch_only (l1 l2 : List CommitFile) (f g : CommitFile)
    (hf : f.hasPatchAttr = false) (hg : g.hasPatchAttr = true)
    (fetch : String → Except Unit (List CommitFile)) (c sha : String)
    (rest : List String) (files : List CommitFile)
    (hc : pySplitWs c = sha :: rest) (hfile : fetch sha = Except.ok files) :
    diff_text (l1 ++ f :: l2) = diff_text (l1 ++ l2) ∧
    diff_text [g] = g.filename ++ "\n" ++ g.patch.getD "" ∧
    get_commit_diffs fetch [c] = [(c, diff_text files)] := by
  refine ⟨?_, ?_, ?_⟩
  · simp [diff_text, List.filterMap_append, List.filterMap_cons, hf]
  · have hsingle : List.filterMap (fun f =>
        if f.hasPatchAttr then some (f.filename ++ "\n" ++ f.patch.getD "") else none) [g]
        = [g.filename ++ "\n" ++ g.patch.getD ""] := by simp [hg]
    unfold diff_text
    rw [hsingle]
    rfl
  · simp [get_commit_diffs, diff_for_commit, hc, hfile]

/-- Claim C6 counterexample: a binary file (patch attribute present, patch
value absent) does contribute — its filename and a newline appear in
`diffText`, where the claim requires an empty contribution. -/
theorem diff_text_patch_only_cex :
    get_commit_diffs (fun _ => Except.ok [⟨"logo.png", none, true⟩]) ["abc1234 Add logo"]
      = [("abc1234 Add logo", "logo.png\n")] ∧ "logo.png\n" ≠ "" := by
  constructor
  · rfl
  · decide

theorem diff_text_patch_only_witness :
    diff_text [⟨"a.bin", none, false⟩, ⟨"src/main.py", some "@@ -1 +1 @@", true⟩]
      = diff_text [⟨"src/main.py", some "@@ -1 +1 @@", true⟩] ∧
    diff_text [⟨"src/main.py", some "@@ -1 +1 @@", true⟩]
      = "src/main.py" ++ "\n" ++ "@@ -1 +1 @@" ∧
    get_commit_diffs (fun _ => Except.ok [⟨"f.txt", some "p", true⟩]) ["abcd123 msg"]
      = [("abcd123 msg", diff_text [⟨"f.txt", some "p", true⟩])] :=
  diff_text_patch_only [] [⟨"src/main.py", some "@@ -1 +1 @@", true⟩]
    ⟨"a.bin", none, false⟩ ⟨"src/main.py", some "@@ -1 +1 @@", true⟩ rfl rfl
    (fun _ => Except.ok [⟨"f.txt", some "p", true⟩]) "abcd123 msg" "abcd123" ["msg"]
    [⟨"f.txt", some "p", true⟩] rfl rfl

/-- Claim C3: for every repository group whose concatenated
per-commit-summaries block has an estimated token count of at least 12000,
the roll-up step prints the skip notice for that repository; the result is
the same for every inference collaborator `get_ai`, which is never invoked
on the skip branch. -/
theorem rollup_skip_on_overflow (get_ai : String → String)
    (repo_name date : String) (pcs : List (String × String))
    (h : 12000 ≤ estimate_token_count (all_commit_text pcs)) :
    rollup_step get_ai repo_name date pcs
      = "\nRepository: " ++ repo_name
        ++ "\n[Final summary skipped: too much content for LLM context window]" := by
  unfold rollup_step
  rw [if_neg (by simp only [AI_SUMMARY_LIMIT]; omega)]

theorem longSummary_length : longSummary.length = 48000 := by
  have h : longSummary.length = (List.replicate 48000 'a').length := rfl
  rw [h, List.length_replicate]

theorem estimate_token_count_eq (t : String) :
    estimate_token_count t = t.length / 4 := rfl

theorem rollup_skip_on_overflow_witness :
    rollup_step (fun s => s) "user/repo" "2024-01-01" [("c", longSummary)]
      = "\nRepository: " ++ "user/repo"
        ++ "\n[Final summary skipped: too much content for LLM context window]" := by
  apply rollup_skip_on_overflow
  have h1 : all_commit_text [("c", longSummary)]
      = "Commit: " ++ "c" ++ "\nSummary: " ++ longSummary := rfl
  have e1 : ("Commit: " : String).length = 8 := rfl
  have e2 : ("c" : String).length = 1 := rfl
  have e3 : ("\nSummary: " : String).length = 10 := rfl
  rw [h1, estimate_token_count_eq, String.length_append, String.length_append,
    String.length_append, e1, e2, e3, longSummary_length]
  norm_num

/-- Claim C4 (amended): `get_ai_summary` is total, so it never raises.
When model acquisition succeeds and the estimated token count of the
prompt exceeds 12000, it returns the overflow sentinel without invoking
the inference call (`respond` is never applied on that path, so the result
is the same for every `respond`); when the prompt is within the limit the
inference result is returned, and any exception — from model acquisition
or from the inference call — is converted into the failure sentinel
embedding the exception's description.  (As frozen, the claim fails when
acquisition itself raises while the prompt is over the limit: the source
acquires the model before checking the bound, so the failure sentinel is
returned instead of the overflow sentinel — see the counterexample.) -/
theorem get_ai_summary_total (acquire : Except String Unit)
    (respond : String → Except String String) (p : String) :
    (∀ e, acquire = Except.error e →
      get_ai_summary acquire respond p = "[AI summary failed: " ++ e ++ "]") ∧
    (acquire = Except.ok () → 12000 < estimate_token_count p →
      get_ai_summary acquire respond p
        = "[Prompt too long for LLM context window, skipping summary.]") ∧
    (acquire = Except.ok () → estimate_token_count p ≤ 12000 →
      (∀ s, respond p = Except.ok s → get_ai_summary acquire respond p = s) ∧
      (∀ e, respond p = Except.error e →
        get_ai_summary acquire respond p = "[AI summary failed: " ++ e ++ "]")) := by
  refine ⟨?_, ?_, ?_⟩
  · intro e he
    subst he
    rfl
  · intro ha hp
    subst ha
    have hgt : estimate_token_count p > AI_SUMMARY_LIMIT := by
      simp only [AI_SUMMARY_LIMIT, gt_iff_lt]
      exact hp
    simp only [get_ai_summary]
    rw [if_pos hgt]
  · intro ha hp
    subst ha
    have hngt : ¬ (estimate_token_count p > AI_SUMMARY_LIMIT) := by
      simp only [AI_SUMMARY_LIMIT, gt_iff_lt, not_lt]
      exact hp
    constructor
    · intro s hs
      simp only [get_ai_summary]
      rw [if_neg hngt, hs]
    · intro e he
      simp only [get_ai_summary]
      rw [if_neg hngt, he]

theorem get_ai_summary_total_witness :
    get_ai_summary (Except.ok ()) (fun _ => Except.error "boom") "p"
      = "[AI summary failed: " ++ "boom" ++ "]" :=
  ((get_ai_summary_total (Except.ok ()) (fun _ => Except.error "boom") "p").2.2 rfl
    (by
      have h : ("p" : String).length = 1 := rfl
      rw [estimate_token_count_eq, h]
      norm_num)).2 "boom" rfl

theorem longPrompt_length : longPrompt.length = 48004 := by
  have h : longPrompt.length = (List.replicate 48004 'a').length := rfl
  rw [h, List.length_replicate]

/-- Claim C4 counterexample: for a prompt whose estimated token count
exceeds 12000, if the model-acquisition step raises (here: the `lmstudio`
package is missing), `get_ai_summary` returns the failure sentinel, not
the overflow sentinel the claim requires: the source acquires the model
before re-checking the token bound. -/
theorem get_ai_summary_total_cex :
    12000 < estimate_token_count longPrompt ∧
    get_ai_summary (Except.error "No module named lmstudio")
        (fun _ => Except.ok "ok") longPrompt
      = "[AI summary failed: No module named lmstudio]" ∧
    "[AI summary failed: No module named lmstudio]"
      ≠ "[Prompt too long for LLM context window, skipping summary.]" := by
  refine ⟨?_, rfl, ?_⟩
  · rw [estimate_token_count_eq, longPrompt_length]
    norm_num
  · decide

/-- Claim C8: for every state of the cache file that is absent, unreadable,
malformed JSON, of the wrong shape, or whose entry has missing or malformed
fields, `load_cache` returns `none`; being a total function, it never
raises (every exception path of the Python `try` is a `none` branch of the
embedding). -/
theorem load_cache_malformed_none (fs : FileState) (now : Int) (d : String)
    (h : badCacheState d fs = true) : load_cache fs now d = none := by
  cases fs with
  | absent => rfl
  | corrupt => rfl
  | content j =>
    cases j with
    | null => rfl
    | num n => rfl
    | str s => rfl
    | arr l => rfl
    | obj m =>
      simp only [badCacheState] at h
      simp only [load_cache, cache_key]
      rcases hlk : lookupKey m d with _ | entry
      · simp [hlk]
      · simp only [hlk] at h
        simp only [hlk]
        cases entry with
        | null => simp [pyTruthy]
        | num k => simp [pyTruthy]
        | str s => simp [pyTruthy]
        | arr l => simp [pyTruthy]
        | obj em =>
          by_cases hem : em.isEmpty
          · simp [pyTruthy, hem]
          · simp only [pyTruthy, hem, Bool.not_false, if_true]
            rcases hts : lookupKey em "timestamp" with _ | tsv
            · simp [hts]
            · simp only [hts] at h
              cases tsv with
              | num ts =>
                have hc : lookupKey em "commits" = none :=
                  Option.isNone_iff_eq_none.mp h
                simp [hc]
              | null => rfl
              | str s2 => rfl
              | arr l2 => rfl
              | obj m2 => rfl

theorem load_cache_malformed_none_witness :
    badCacheState "2024-01-01" (FileState.content (Json.str "oops")) = true ∧
    load_cache (FileState.content (Json.str "oops")) 0 "2024-01-01" = none :=
  ⟨rfl, load_cache_malformed_none (FileState.content (Json.str "oops")) 0 "2024-01-01" rfl⟩
